import Mathlib

/-!
Shallow embedding of the adapter/aggregation layer of
`edward/models/models.py` (classes `PyMC3Model`, `PythonModel`,
`StanModel`, `Variational`) together with proofs of the claims about it.

Conventions of the embedding:
* NumPy / TensorFlow numeric values are modelled over the rationals.
* A latent-sample batch (S rows, each a flat vector) is a list of rows.
* A NumPy result array carries an explicit dtype tag, since the code
  constructs its result buffers with an explicit 32-bit float dtype.
* Host-side code that can raise at run time is modelled with Option or
  Except, returning none or an error where the Python raises.
-/

namespace Ed

/-- Dtype tag of a NumPy-style array. Only these two occur in the modelled
code paths (np.float32 result buffers versus default 64-bit data). -/
inductive DType where
  | f32
  | f64
deriving DecidableEq, Repr

/-- NumPy-style 1-D array with an explicit dtype tag. -/
structure NpArr where
  dtype : DType
  data : List ℚ
deriving DecidableEq, Repr

/-- A latent-sample batch: S rows, each a flat vector of rationals. -/
abbrev Batch := List (List ℚ)

/-! ## Variational layers and the Variational container -/

/-- One variational layer object, as consumed by the `Variational`
container: the descriptive attributes the container aggregates, plus the
log density map on a batch. The boolean `is_normal_layer` models the
Python-side test `isinstance(layer, Normal)` and `has_entropy` models
the test that `entropy` is a member of the layer class dictionary. -/
structure Layer where
  shape : List Nat
  n_vars : Nat
  n_params : Nat
  is_differentiable : Bool
  is_multivariate : Bool
  is_reparameterized : Bool
  has_entropy : Bool
  is_normal_layer : Bool
  log_prob : Batch → List ℚ

/-- Default layer object, used only to totalise list indexing the Python
code performs with plain (possibly failing) subscripts. -/
def dummyLayer : Layer :=
  ⟨[], 0, 0, true, false, true, false, false, fun _ => []⟩

instance : Inhabited Layer := ⟨dummyLayer⟩

/-- State of the `Variational` container: the layer list plus every
aggregate attribute the Python constructor and `add` maintain. -/
structure Variational where
  layers : List Layer
  shape : List (List Nat)
  n_vars : Nat
  n_params : Nat
  is_differentiable : Bool
  is_multivariate : List Bool
  is_reparameterized : Bool
  is_normal : Bool
  is_entropy : Bool

/-- `Variational.__init__` with `layers=None`: the empty container. -/
def Variational.empty : Variational :=
  ⟨[], [], 0, 0, true, [], true, true, true⟩

/-- `Variational.__init__` with an explicit layer list: every aggregate
attribute is computed from scratch over the list. -/
def Variational.ofLayers (ls : List Layer) : Variational :=
  ⟨ls,
   ls.map (fun layer => layer.shape),
   (ls.map (fun layer => layer.n_vars)).sum,
   (ls.map (fun layer => layer.n_params)).sum,
   ls.all (fun layer => layer.is_differentiable),
   ls.map (fun layer => layer.is_multivariate),
   ls.all (fun layer => layer.is_reparameterized),
   ls.all (fun layer => layer.is_normal_layer),
   ls.all (fun layer => layer.has_entropy)⟩

/-- `Variational.add`: appends a layer and updates every aggregate
attribute incrementally, exactly field by field as the Python does. -/
def Variational.add (v : Variational) (layer : Layer) : Variational :=
  { layers := v.layers ++ [layer]
    shape := v.shape ++ [layer.shape]
    n_vars := v.n_vars + layer.n_vars
    n_params := v.n_params + layer.n_params
    is_differentiable := v.is_differentiable && layer.is_differentiable
    is_multivariate := v.is_multivariate ++ [layer.is_multivariate]
    is_reparameterized := v.is_reparameterized && layer.is_reparameterized
    is_normal := v.is_normal && layer.is_normal_layer
    is_entropy := v.is_entropy && layer.has_entropy }

lemma foldl_add_closed (ls : List Layer) (v : Variational) :
    List.foldl Variational.add v ls =
      ⟨v.layers ++ ls,
       v.shape ++ ls.map (fun layer => layer.shape),
       v.n_vars + (ls.map (fun layer => layer.n_vars)).sum,
       v.n_params + (ls.map (fun layer => layer.n_params)).sum,
       v.is_differentiable && ls.all (fun layer => layer.is_differentiable),
       v.is_multivariate ++ ls.map (fun layer => layer.is_multivariate),
       v.is_reparameterized && ls.all (fun layer => layer.is_reparameterized),
       v.is_normal && ls.all (fun layer => layer.is_normal_layer),
       v.is_entropy && ls.all (fun layer => layer.has_entropy)⟩ := by
  induction ls generalizing v with
  | nil => simp
  | cons L ls ih =>
    rw [List.foldl_cons, ih]
    simp [Variational.add, Bool.and_assoc, add_assoc]

/-- Dynamic shape of the `xs` argument of `Variational.log_prob`: the
Python caller passes either a bare batch (single variational family) or
an ordered list of per-layer batches (multiple families). -/
inductive VIn where
  | single (b : Batch)
  | multi (bs : List Batch)

/-- Elementwise tensor addition, modelling the graph-level `+=` on two
1-D tensors of equal length (on unequal lengths the graph runtime fails;
the claims only exercise the equal-length contract). -/
def vecAdd (a b : List ℚ) : List ℚ := List.zipWith (· + ·) a b

/-- The accumulation loop of the multi-layer branch of
`Variational.log_prob`: `for l, layer in enumerate(self.layers):
log_prob += layer.log_prob(xs[l])`. The subscript `xs[l]` is modelled
with a default on out-of-range indices, a caller contract violation the
Python leaves to the runtime. -/
def sumLogProbs (layers : List Layer) (bs : List Batch) (i : Nat) (acc : List ℚ) :
    List ℚ :=
  match layers with
  | [] => acc
  | L :: rest => sumLogProbs rest bs (i + 1) (vecAdd acc (L.log_prob (bs.getD i [])))

/-- `Variational.log_prob`: with exactly one layer it delegates to that
single layer on the bare batch; otherwise it starts from
`tf.zeros([n_samples])` with `n_samples` read off the first batch and
accumulates every layer log density elementwise. The `none` branches
mark the dynamically ill-typed call shapes (bare tensor with several
layers, or a list with one layer) that the code does not support. -/
def Variational.log_prob (v : Variational) : VIn → Option (List ℚ)
  | VIn.single b =>
      if v.layers.length = 1 then some (v.layers.headI.log_prob b) else none
  | VIn.multi bs =>
      if v.layers.length = 1 then none
      else
        some (sumLogProbs v.layers bs 0 (List.replicate bs.headI.length 0))

lemma vecAdd_length (a b : List ℚ) (h : b.length = a.length) :
    (vecAdd a b).length = a.length := by
  simp [vecAdd, h]

lemma vecAdd_getD (a b : List ℚ) (s : Nat) (hs : s < a.length)
    (h : b.length = a.length) :
    (vecAdd a b).getD s 0 = a.getD s 0 + b.getD s 0 := by
  have hs' : s < b.length := by omega
  have hz : s < (vecAdd a b).length := by rw [vecAdd_length a b h]; exact hs
  rw [List.getD_eq_getElem _ _ hz, List.getD_eq_getElem _ _ hs,
    List.getD_eq_getElem _ _ hs']
  simp [vecAdd]

lemma sumLogProbs_length (layers : List Layer) (bs : List Batch) (i : Nat)
    (acc : List ℚ)
    (hlp : ∀ j, j < layers.length →
      ((layers.getD j dummyLayer).log_prob (bs.getD (i + j) [])).length = acc.length) :
    (sumLogProbs layers bs i acc).length = acc.length := by
  induction layers generalizing i acc with
  | nil => simp [sumLogProbs]
  | cons L rest ih =>
    have h0 : (L.log_prob (bs.getD i [])).length = acc.length := by
      have := hlp 0 (by simp)
      simpa using this
    have hacc' : (vecAdd acc (L.log_prob (bs.getD i []))).length = acc.length :=
      vecAdd_length _ _ h0
    rw [sumLogProbs, ih (i + 1) _ ?_, hacc']
    intro j hj
    have := hlp (j + 1) (by simpa using Nat.succ_lt_succ hj)
    rw [hacc']
    have harg : i + 1 + j = i + (j + 1) := by omega
    rw [harg]
    simpa using this

lemma sumLogProbs_getD (layers : List Layer) (bs : List Batch) (i : Nat)
    (acc : List ℚ)
    (hlp : ∀ j, j < layers.length →
      ((layers.getD j dummyLayer).log_prob (bs.getD (i + j) [])).length = acc.length)
    (s : Nat) (hs : s < acc.length) :
    (sumLogProbs layers bs i acc).getD s 0 =
      acc.getD s 0 +
        ∑ j ∈ Finset.range layers.length,
          ((layers.getD j dummyLayer).log_prob (bs.getD (i + j) [])).getD s 0 := by
  induction layers generalizing i acc with
  | nil => simp [sumLogProbs]
  | cons L rest ih =>
    have h0 : (L.log_prob (bs.getD i [])).length = acc.length := by
      have := hlp 0 (by simp)
      simpa using this
    have hacc' : (vecAdd acc (L.log_prob (bs.getD i []))).length = acc.length :=
      vecAdd_length _ _ h0
    have hrest : ∀ j, j < rest.length →
        ((rest.getD j dummyLayer).log_prob (bs.getD (i + 1 + j) [])).length =
          (vecAdd acc (L.log_prob (bs.getD i []))).length := by
      intro j hj
      have := hlp (j + 1) (by simpa using Nat.succ_lt_succ hj)
      rw [hacc']
      have harg : i + 1 + j = i + (j + 1) := by omega
      rw [harg]
      simpa using this
    rw [sumLogProbs, ih (i + 1) _ hrest (by rw [hacc']; exact hs)]
    rw [vecAdd_getD acc _ s hs h0]
    rw [List.length_cons, Finset.sum_range_succ']
    have hshift : ∀ j, (((L :: rest).getD (j + 1) dummyLayer).log_prob
        (bs.getD (i + (j + 1)) [])).getD s 0 =
        ((rest.getD j dummyLayer).log_prob (bs.getD (i + 1 + j) [])).getD s 0 := by
      intro j
      have harg : i + (j + 1) = i + 1 + j := by omega
      simp [harg]
    simp only [hshift]
    have hhead : (((L :: rest).getD 0 dummyLayer).log_prob
        (bs.getD (i + 0) [])).getD s 0 = (L.log_prob (bs.getD i [])).getD s 0 := by
      simp
    rw [hhead]
    ring

/-- C1: for a Variational composite with N >= 2 layers, log_prob on an
ordered list of N per-layer batches of identical batch size S returns a
length-S vector whose entry at each sample index s is the sum over the
layers of that layer's own per-sample log density at s; for a composite
with exactly one layer, log_prob delegates directly to that layer's own
log_prob on the bare batch. -/
theorem variational_log_prob_sums_layers :
    (∀ (v : Variational) (bs : List Batch) (S : Nat),
      2 ≤ v.layers.length →
      bs.length = v.layers.length →
      (∀ b ∈ bs, b.length = S) →
      (∀ i, i < v.layers.length →
        ((v.layers.getD i dummyLayer).log_prob (bs.getD i [])).length = S) →
      ∃ r, v.log_prob (VIn.multi bs) = some r ∧ r.length = S ∧
        ∀ s, s < S → r.getD s 0 =
          ∑ i ∈ Finset.range v.layers.length,
            ((v.layers.getD i dummyLayer).log_prob (bs.getD i [])).getD s 0) ∧
    (∀ (v : Variational) (b : Batch), v.layers.length = 1 →
      v.log_prob (VIn.single b) = some (v.layers.headI.log_prob b)) := by
  constructor
  · intro v bs S hN hbs hrows hlp
    have hne : v.layers.length ≠ 1 := by omega
    have hbs0 : bs.headI.length = S := by
      cases bs with
      | nil => simp at hbs; omega
      | cons b rest => exact hrows b (by simp)
    have hacc : (List.replicate bs.headI.length (0 : ℚ)).length = S := by
      simp [hbs0]
    have hlp' : ∀ j, j < v.layers.length →
        ((v.layers.getD j dummyLayer).log_prob (bs.getD (0 + j) [])).length =
          (List.replicate bs.headI.length (0 : ℚ)).length := by
      intro j hj
      rw [hacc, Nat.zero_add]
      exact hlp j hj
    refine ⟨sumLogProbs v.layers bs 0 (List.replicate bs.headI.length 0), ?_, ?_, ?_⟩
    · simp [Variational.log_prob, hne]
    · rw [sumLogProbs_length v.layers bs 0 _ hlp', hacc]
    · intro s hs
      rw [sumLogProbs_getD v.layers bs 0 _ hlp' s (by rw [hacc]; exact hs)]
      have hzero : (List.replicate bs.headI.length (0 : ℚ)).getD s 0 = 0 := by
        rcases Nat.lt_or_ge s bs.headI.length with hlt | hge
        · rw [List.getD_eq_getElem _ _ (by simpa using hlt)]
          simp
        · rw [List.getD_eq_default _ _ (by simpa using hge)]
      rw [hzero, zero_add]
      refine Finset.sum_congr rfl ?_
      intro j _
      rw [Nat.zero_add]
  · intro v b h1
    simp [Variational.log_prob, h1]

/-- Concrete test layer whose log density of a row is the row sum. -/
def wLayerA : Layer :=
  ⟨[2], 2, 4, true, false, true, true, true, fun b => b.map (fun r => r.sum)⟩

/-- Concrete test layer whose log density of a row is the row sum plus one. -/
def wLayerB : Layer :=
  ⟨[1], 1, 2, true, false, true, true, false, fun b => b.map (fun r => r.sum + 1)⟩

/-- Concrete two-layer composite used as a witness input. -/
def wV : Variational := Variational.ofLayers [wLayerA, wLayerB]

/-- Concrete per-layer batches (batch size 2) used as a witness input. -/
def wBs : List Batch := [[[1, 2], [3, 4]], [[5], [6]]]

theorem variational_log_prob_sums_layers_witness :
    (2 ≤ wV.layers.length ∧ wBs.length = wV.layers.length ∧
      (∀ b ∈ wBs, b.length = 2) ∧
      (∀ i, i < wV.layers.length →
        ((wV.layers.getD i dummyLayer).log_prob (wBs.getD i [])).length = 2)) ∧
    (∃ r, wV.log_prob (VIn.multi wBs) = some r ∧ r.length = 2 ∧
      ∀ s, s < 2 → r.getD s 0 =
        ∑ i ∈ Finset.range wV.layers.length,
          ((wV.layers.getD i dummyLayer).log_prob (wBs.getD i [])).getD s 0) :=
  ⟨⟨by decide, by decide, by decide, by decide⟩,
   variational_log_prob_sums_layers.1 wV wBs 2 (by decide) (by decide)
     (by decide) (by decide)⟩

/-- C4: building a Variational composite by starting from the empty
constructor and performing the add calls in order yields aggregate state
identical to constructing it directly from the full layer list; and any
composite reached from empty by a sequence of add calls equals the one
computed from scratch over its current layer sequence. -/
theorem variational_add_matches_construction :
    (∀ ls : List Layer,
      List.foldl Variational.add Variational.empty ls = Variational.ofLayers ls) ∧
    (∀ ls : List Layer,
      List.foldl Variational.add Variational.empty ls =
        Variational.ofLayers
          ((List.foldl Variational.add Variational.empty ls).layers)) := by
  have hmain : ∀ ls : List Layer,
      List.foldl Variational.add Variational.empty ls = Variational.ofLayers ls := by
    intro ls
    rw [foldl_add_closed]
    simp [Variational.empty, Variational.ofLayers]
  refine ⟨hmain, ?_⟩
  intro ls
  rw [hmain ls]
  simp [Variational.ofLayers]

/-- Concrete adversarial layer reporting false for every capability flag. -/
def wAdv : Layer :=
  ⟨[1], 1, 1, false, false, false, false, false, fun _ => []⟩

/-- C8: for a composite with a non-empty layer sequence, the aggregate
is_differentiable and is_reparameterized flags are true exactly when
every constituent layer reports the corresponding flag true, and one
false layer forces the aggregate to false. -/
theorem variational_flags_all_layers (ls : List Layer) (_h : ls ≠ []) :
    ((Variational.ofLayers ls).is_differentiable = true ↔
      ∀ L ∈ ls, L.is_differentiable = true) ∧
    ((Variational.ofLayers ls).is_reparameterized = true ↔
      ∀ L ∈ ls, L.is_reparameterized = true) ∧
    (∀ L ∈ ls,
      (L.is_differentiable = false →
        (Variational.ofLayers ls).is_differentiable = false) ∧
      (L.is_reparameterized = false →
        (Variational.ofLayers ls).is_reparameterized = false)) := by
  refine ⟨?_, ?_, ?_⟩
  · simp [Variational.ofLayers, List.all_eq_true]
  · simp [Variational.ofLayers, List.all_eq_true]
  · intro L hL
    constructor
    · intro hf
      show (ls.all (fun layer => layer.is_differentiable)) = false
      exact List.all_eq_false.mpr ⟨L, hL, by simp [hf]⟩
    · intro hf
      show (ls.all (fun layer => layer.is_reparameterized)) = false
      exact List.all_eq_false.mpr ⟨L, hL, by simp [hf]⟩

theorem variational_flags_all_layers_witness :
    ([wLayerA, wAdv] ≠ []) ∧
    (((Variational.ofLayers [wLayerA, wAdv]).is_differentiable = true ↔
      ∀ L ∈ [wLayerA, wAdv], L.is_differentiable = true) ∧
    ((Variational.ofLayers [wLayerA, wAdv]).is_reparameterized = true ↔
      ∀ L ∈ [wLayerA, wAdv], L.is_reparameterized = true) ∧
    (∀ L ∈ [wLayerA, wAdv],
      (L.is_differentiable = false →
        (Variational.ofLayers [wLayerA, wAdv]).is_differentiable = false) ∧
      (L.is_reparameterized = false →
        (Variational.ofLayers [wLayerA, wAdv]).is_reparameterized = false))) :=
  ⟨by simp, variational_flags_all_layers [wLayerA, wAdv] (by simp)⟩

/-! ## PythonModel and PyMC3Model marshaling across the tf.py_func boundary -/

/-- The flattened argument list handed to tf.py_func by
PythonModel.log_prob and PyMC3Model.log_prob: the data-map values in the
map key order, followed by the latent batch as the last element. -/
def flattenArgs {α : Type} (xs : List (String × α)) (zs : α) : List α :=
  xs.map Prod.snd ++ [zs]

/-- The host-side slicing in _py_log_prob_args: xs_values is the prefix
of args of the stored key-list length, re-zipped with the stored keys,
and zs is the last argument. The last element of an empty list is the
error case of the Python subscript, hence the Option. -/
def pyArgsSplit {α : Type} (xs_keys : List String) (args : List α) :
    List (String × α) × Option α :=
  (xs_keys.zip (args.take xs_keys.length), args.getLast?)

lemma py_round_trip {α : Type} (xs : List (String × α)) (zs : α) :
    pyArgsSplit (xs.map Prod.fst) (flattenArgs xs zs) = (xs, some zs) := by
  unfold pyArgsSplit flattenArgs
  have hlen : (xs.map Prod.fst).length = (xs.map Prod.snd).length := by simp
  rw [hlen, List.take_left, List.getLast?_concat, List.zip_map']
  simp

/-- C5: the adapter flattens the data map and the sample batch into one
ordered argument list, data tensors first in the map key order and the
latent batch last, and the host side rebuilds the key-value map with the
same key order, re-associating each key with its original value. -/
theorem py_func_args_round_trip {α : Type} :
    ∀ (xs : List (String × α)) (zs : α),
      flattenArgs xs zs = xs.map Prod.snd ++ [zs] ∧
      pyArgsSplit (xs.map Prod.fst) (flattenArgs xs zs) = (xs, some zs) :=
  fun xs zs => ⟨rfl, py_round_trip xs zs⟩

/-- The base PythonModel._py_log_prob: it raises NotImplementedError on
every input. -/
def pythonModelBaseHook {α : Type} (xs : List (String × α)) (zs : Option α) :
    Except String NpArr :=
  match xs, zs with
  | _, _ => Except.error "NotImplementedError"

/-- PythonModel._py_log_prob_args with an explicit density hook standing
for the subclass override of _py_log_prob: rebuild the data map from the
stored keys and the argument prefix, take the batch from the last
argument, and call the hook on them. -/
def pyLogProbArgsHost {α β : Type} (hook : List (String × α) → Option α → β)
    (xs_keys : List String) (args : List α) : β :=
  hook (pyArgsSplit xs_keys args).1 (pyArgsSplit xs_keys args).2

/-- C7: the unoverridden base density hook fails with a not-implemented
error on every input, and an overriding hook is invoked with the data
map rebuilt with the original keys (in fact with the original map
itself) and the latent batch unchanged. -/
theorem python_model_base_hook_contract {α β : Type} :
    (∀ (xs : List (String × α)) (zs : Option α),
      pythonModelBaseHook xs zs = Except.error "NotImplementedError") ∧
    (∀ (hook : List (String × α) → Option α → β)
      (xs : List (String × α)) (zs : α),
      pyLogProbArgsHost hook (xs.map Prod.fst) (flattenArgs xs zs) =
        hook xs (some zs)) := by
  constructor
  · intro xs zs
    rfl
  · intro hook xs zs
    unfold pyLogProbArgsHost
    rw [py_round_trip xs zs]

/-- Mutable adapter state shared by all log_prob graph nodes of one
PythonModel or PyMC3Model instance: the key list stored by the most
recent log_prob call. -/
structure PyState where
  xs_keys : List String

/-- A deferred tf.py_func graph node: it captures the flattened input
list at construction time; the host callback runs later. -/
structure PyNode (α : Type) where
  inputs : List α

/-- Graph-construction side of PythonModel.log_prob and
PyMC3Model.log_prob: overwrite self.xs_keys with the current data-map
keys and build a node capturing the flattened inputs. -/
def pyBuildLogProb {α : Type} (_st : PyState) (xs : List (String × α)) (zs : α) :
    PyState × PyNode α :=
  (⟨xs.map Prod.fst⟩, ⟨flattenArgs xs zs⟩)

/-- Graph-execution side: the deferred host callback reads self.xs_keys
as it is at execution time and splits the captured inputs with it. -/
def pyExecSplit {α : Type} (st : PyState) (nd : PyNode α) :
    List (String × α) × Option α :=
  pyArgsSplit st.xs_keys nd.inputs

/-- C10: building two log_prob graph nodes on one adapter instance
overwrites the instance xs_keys field each time, and since the deferred
host-side reconstruction reads xs_keys at graph-execution time, both
nodes are split with the key list of the most recent call: the earlier
node gets the later keys zipped against its own captured values, and
when the key lists differ the earlier node no longer sees its own keys. -/
theorem py_xs_keys_aliasing {α : Type} (st0 : PyState)
    (xs1 xs2 : List (String × α)) (zs1 zs2 : α)
    (hlen : xs1.length = xs2.length) :
    (pyBuildLogProb st0 xs1 zs1).1.xs_keys = xs1.map Prod.fst ∧
    (pyBuildLogProb (pyBuildLogProb st0 xs1 zs1).1 xs2 zs2).1.xs_keys =
      xs2.map Prod.fst ∧
    (pyExecSplit (pyBuildLogProb (pyBuildLogProb st0 xs1 zs1).1 xs2 zs2).1
        (pyBuildLogProb st0 xs1 zs1).2).1 =
      (xs2.map Prod.fst).zip (xs1.map Prod.snd) ∧
    (pyExecSplit (pyBuildLogProb (pyBuildLogProb st0 xs1 zs1).1 xs2 zs2).1
        (pyBuildLogProb (pyBuildLogProb st0 xs1 zs1).1 xs2 zs2).2).1 = xs2 ∧
    (xs1.map Prod.fst ≠ xs2.map Prod.fst →
      (pyExecSplit (pyBuildLogProb (pyBuildLogProb st0 xs1 zs1).1 xs2 zs2).1
          (pyBuildLogProb st0 xs1 zs1).2).1.map Prod.fst ≠ xs1.map Prod.fst) := by
  have hzip : (pyExecSplit (pyBuildLogProb (pyBuildLogProb st0 xs1 zs1).1 xs2 zs2).1
      (pyBuildLogProb st0 xs1 zs1).2).1 =
      (xs2.map Prod.fst).zip (xs1.map Prod.snd) := by
    unfold pyExecSplit pyBuildLogProb pyArgsSplit flattenArgs
    have hl : (xs2.map Prod.fst).length = (xs1.map Prod.snd).length := by
      simp [hlen]
    rw [hl, List.take_left]
  refine ⟨rfl, rfl, hzip, ?_, ?_⟩
  · show (pyExecSplit ⟨xs2.map Prod.fst⟩ ⟨flattenArgs xs2 zs2⟩).1 = xs2
    unfold pyExecSplit
    rw [py_round_trip xs2 zs2]
  · intro hne
    rw [hzip]
    have hfst : ((xs2.map Prod.fst).zip (xs1.map Prod.snd)).map Prod.fst =
        xs2.map Prod.fst := by
      apply List.map_fst_zip
      simp [hlen]
    rw [hfst]
    exact fun hcontr => hne hcontr.symm

/-- Concrete witness inputs for the xs_keys aliasing claim. -/
def wXs1 : List (String × ℚ) := [("a", 1)]

/-- Second concrete data map with a different key list. -/
def wXs2 : List (String × ℚ) := [("b", 2)]

theorem py_xs_keys_aliasing_witness :
    (wXs1.length = wXs2.length) ∧
    ((pyBuildLogProb ⟨[]⟩ wXs1 (3 : ℚ)).1.xs_keys = wXs1.map Prod.fst ∧
    (pyBuildLogProb (pyBuildLogProb ⟨[]⟩ wXs1 (3 : ℚ)).1 wXs2 (4 : ℚ)).1.xs_keys =
      wXs2.map Prod.fst ∧
    (pyExecSplit (pyBuildLogProb (pyBuildLogProb ⟨[]⟩ wXs1 (3 : ℚ)).1 wXs2 (4 : ℚ)).1
        (pyBuildLogProb ⟨[]⟩ wXs1 (3 : ℚ)).2).1 =
      (wXs2.map Prod.fst).zip (wXs1.map Prod.snd) ∧
    (pyExecSplit (pyBuildLogProb (pyBuildLogProb ⟨[]⟩ wXs1 (3 : ℚ)).1 wXs2 (4 : ℚ)).1
        (pyBuildLogProb (pyBuildLogProb ⟨[]⟩ wXs1 (3 : ℚ)).1 wXs2 (4 : ℚ)).2).1 =
      wXs2 ∧
    (wXs1.map Prod.fst ≠ wXs2.map Prod.fst →
      (pyExecSplit (pyBuildLogProb (pyBuildLogProb ⟨[]⟩ wXs1 (3 : ℚ)).1 wXs2 (4 : ℚ)).1
          (pyBuildLogProb ⟨[]⟩ wXs1 (3 : ℚ)).2).1.map Prod.fst ≠ wXs1.map Prod.fst)) :=
  ⟨by decide, py_xs_keys_aliasing ⟨[]⟩ wXs1 wXs2 (3 : ℚ) (4 : ℚ) (by decide)⟩

/-! ## StanModel adapter -/

/-- A named Stan parameter value: a bare scalar (produced by the
float(z[idx]) branch) or an array with its declared dimension tuple
(produced by the reshape branch). -/
inductive ParVal where
  | scalar (x : ℚ)
  | arr (data : List ℚ) (dims : List Nat)
deriving DecidableEq, Repr

/-- NumPy reshape of a flat chunk to a dimension tuple: succeeds exactly
when the chunk size equals the product of the dimensions, otherwise the
Python raises a ValueError. -/
def npReshape (chunk : List ℚ) (dims : List Nat) : Option ParVal :=
  if chunk.length = dims.prod then some (ParVal.arr chunk dims) else none

/-- The dictionary-building loop of StanModel._py_log_prob: walk the
zipped (par_dims, model_pars) table in declared order with a running
offset idx into the flat vector z; a parameter with sum(dim) equal to
zero becomes the scalar float(z[idx]) (an out-of-range index raises),
any other parameter takes the slice z[idx : idx + sum(dim)] (a NumPy
slice, silently truncated at the end of z) reshaped to dim. -/
def stanZDict : List (List Nat × String) → List ℚ → Nat →
    Option (List (String × ParVal))
  | [], _, _ => some []
  | (dim, par) :: rest, z, idx =>
    if dim.sum = 0 then
      match z.get? idx with
      | none => none
      | some x =>
        match stanZDict rest z (idx + 1) with
        | none => none
        | some d => some ((par, ParVal.scalar x) :: d)
    else
      match npReshape ((z.drop idx).take dim.sum) dim with
      | none => none
      | some v =>
        match stanZDict rest z (idx + dim.sum) with
        | none => none
        | some d => some ((par, v) :: d)

/-- The part of a pystan model-fit handle that the adapter consumes: the
declared parameter dimension table, the declared parameter names, the
unconstrain transform on a named parameter dictionary, and the density
on the unconstrained vector with its adjust_transform flag. -/
structure StanFit where
  par_dims : List (List Nat)
  model_pars : List String
  unconstrain : List (String × ParVal) → List ℚ
  lp : List ℚ → Bool → ℚ

/-- One iteration of the per-sample loop of StanModel._py_log_prob:
build the ordered parameter dictionary from the flat row, unconstrain
it, and evaluate the fit density with adjust_transform set to False. -/
def stanRowLp (fit : StanFit) (z : List ℚ) : Option ℚ :=
  (stanZDict (fit.par_dims.zip fit.model_pars) z 0).map
    (fun d => fit.lp (fit.unconstrain d) false)

/-- The full per-sample loop of StanModel._py_log_prob over the batch
rows; any row failure aborts the host callback. -/
def stanRowsLp (fit : StanFit) : Batch → Option (List ℚ)
  | [] => some []
  | z :: rest =>
    match stanRowLp fit z with
    | none => none
    | some v =>
      match stanRowsLp fit rest with
      | none => none
      | some vs => some (v :: vs)

/-- StanModel._py_log_prob: an np.float32 result buffer filled with one
density per batch row. -/
def stanPyLogProb (fit : StanFit) (zs : Batch) : Option NpArr :=
  (stanRowsLp fit zs).map (fun l => ⟨DType.f32, l⟩)

/-- StanModel._initialize computes n_vars as
sum(sum(dim) if sum(dim) != 0 else 1 for dim in par_dims). -/
def stanNVars (par_dims : List (List Nat)) : Nat :=
  (par_dims.map (fun dim => if dim.sum ≠ 0 then dim.sum else 1)).sum

/-- The compiled Stan backend: its sampling entry point, taking the data
dictionary, the iteration count and the chain count, and returning a
model-fit handle. -/
structure StanBackend where
  sampling : List (String × ParVal) → Nat → Nat → StanFit

/-- Mutable StanModel adapter state: the compiled model, the cached
model-fit handle, the one-time initialization flag (is_initialized in
the source) and the lazily resolved n_vars. -/
structure StanState where
  model : StanBackend
  modelfit : Option StanFit
  is_init : Bool
  n_vars : Option Nat

/-- The diagnostic note printed by every StanModel.log_prob call. The
source string uses a possessive form of Stan; it is rendered here
without the apostrophe character. -/
def stanDiagMsg : String :=
  "The empty sampling message exists for accessing the Stan log_prob method."

/-- Everything one StanModel.log_prob call produces: the updated adapter
state, the printed diagnostics, and the eventual host-side result of the
deferred tf.py_func node. -/
structure StanCallResult where
  state : StanState
  log : List String
  out : Option NpArr

/-- StanModel.log_prob: print the diagnostic note, replace the modelfit
cache with a fresh handle from a single-iteration single-chain sampling
pass on the current data, run the one-time initialization if it has not
happened yet, and defer the per-sample density loop to the graph node. -/
def stanLogProb (st : StanState) (xs : List (String × ParVal)) (zs : Batch) :
    StanCallResult :=
  let fit := st.model.sampling xs 1 1
  let st1 : StanState := { st with modelfit := some fit }
  let st2 : StanState :=
    if st1.is_init then st1
    else { st1 with is_init := true, n_vars := some (stanNVars fit.par_dims) }
  { state := st2, log := [stanDiagMsg], out := stanPyLogProb fit zs }

/-- C9: every StanModel.log_prob call replaces the modelfit cache with a
fresh handle obtained from a single-iteration, single-chain sampling
pass on the call data, emits the diagnostic note about that pass, and
modifies no adapter field other than modelfit, except that on the first
call it also sets the initialization flag and resolves n_vars. -/
theorem stan_log_prob_frame (st : StanState) (xs : List (String × ParVal))
    (zs : Batch) :
    (stanLogProb st xs zs).state =
      { st with
        modelfit := some (st.model.sampling xs 1 1)
        is_init := true
        n_vars := if st.is_init then st.n_vars
                  else some (stanNVars (st.model.sampling xs 1 1).par_dims) } ∧
    (stanLogProb st xs zs).log = [stanDiagMsg] ∧
    (stanLogProb st xs zs).state.model = st.model := by
  rcases st with ⟨m, mf, ii, nv⟩
  cases ii <;> simp [stanLogProb]

/-- Concrete fit handle declaring one matrix-shaped parameter with
dimension tuple (2, 3). -/
def fitMat : StanFit := ⟨[[2, 3]], ["A"], fun _ => [], fun _ _ => 0⟩

/-- Concrete fit handle declaring one vector parameter of dimension 7. -/
def fitVec : StanFit := ⟨[[7]], ["B"], fun _ => [], fun _ _ => 0⟩

/-- Concrete adapter state whose backend reports the matrix table on a
first (empty-data) call and the vector table on any later call. -/
def stMat : StanState :=
  ⟨⟨fun xs _ _ => if xs = [] then fitMat else fitVec⟩, none, false, none⟩

/-- C2 (failing evaluation): on the dimension table [[2, 3]] the code
resolves n_vars as sum(dim) = 5, not the flattened dimensionality
2 * 3 = 6 the claim states; the resolved value is then kept verbatim on
a second call whose backend table would give a different value. -/
theorem stan_n_vars_sum_of_dims :
    (stanLogProb stMat [] []).state.n_vars = some 5 ∧
    (stanLogProb stMat [] []).state.n_vars ≠ some (([2, 3] : List Nat).prod) ∧
    (stanLogProb (stanLogProb stMat [] []).state
        [("d", ParVal.scalar 0)] []).state.n_vars = some 5 := by
  refine ⟨rfl, by decide, rfl⟩

/-- C3 (failing evaluation): on the dimension table [[2, 3]] and a flat
row of the full flattened dimensionality 6, the code slices only
sum(dim) = 5 elements and the reshape to (2, 3) fails, so the host
callback raises instead of evaluating the density; a chunk of all 6
elements would have reshaped to (2, 3) as the claim describes. -/
theorem stan_py_log_prob_reshape_fails :
    stanPyLogProb fitMat [[1, 2, 3, 4, 5, 6]] = none ∧
    npReshape [1, 2, 3, 4, 5, 6] [2, 3] =
      some (ParVal.arr [1, 2, 3, 4, 5, 6] [2, 3]) := by
  refine ⟨by decide, by decide⟩

/-- The density loop of PyMC3Model._py_log_prob_args after the
set_value loop has assigned every data realization into its Theano
placeholder: lp = np.zeros(n_samples, dtype=np.float32), then
lp[s] = logp(zs[s, :]) for each sample row, with the logp closure
conditioned on the placeholder assignment. -/
def pymc3DensityLoop {α : Type} (logp : List (String × α) → List ℚ → ℚ)
    (assign : List (String × α)) (zs : Batch) : NpArr :=
  ⟨DType.f32, zs.map (fun z => logp assign z)⟩

lemma stanRowsLp_spec (fit : StanFit) (zs : Batch) (l : List ℚ)
    (h : stanRowsLp fit zs = some l) :
    l.length = zs.length ∧ ∀ s, s < zs.length → ∃ d,
      stanZDict (fit.par_dims.zip fit.model_pars) (zs.getD s []) 0 = some d ∧
      l.getD s 0 = fit.lp (fit.unconstrain d) false := by
  induction zs generalizing l with
  | nil =>
    rw [stanRowsLp] at h
    obtain rfl : ([] : List ℚ) = l := by simpa using h
    simp
  | cons z rest ih =>
    cases hz : stanRowLp fit z with
    | none => rw [stanRowsLp, hz] at h; simp at h
    | some v =>
      cases hr : stanRowsLp fit rest with
      | none => rw [stanRowsLp, hz, hr] at h; simp at h
      | some vs =>
        rw [stanRowsLp, hz, hr] at h
        obtain rfl : v :: vs = l := by simpa using h
        obtain ⟨hlen, hspec⟩ := ih vs hr
        refine ⟨by simp [hlen], ?_⟩
        intro s hs
        cases s with
        | zero =>
          unfold stanRowLp at hz
          cases hd : stanZDict (fit.par_dims.zip fit.model_pars) z 0 with
          | none => rw [hd] at hz; simp at hz
          | some d =>
            rw [hd] at hz
            simp only [Option.map_some', Option.some.injEq] at hz
            exact ⟨d, by simpa using hd, by simp [hz]⟩
        | succ t =>
          have := hspec t (by simpa using Nat.lt_of_succ_lt_succ hs)
          simpa using this

/-- Concrete test density for the PyMC3 path, summing the data values
and the row. -/
def wLogp : List (String × List ℚ) → List ℚ → ℚ :=
  fun xs z => (xs.map (fun p => p.2.sum)).sum + z.sum

/-- Concrete 5-row latent batch with one column. -/
def wZ5 : Batch := [[1], [2], [3], [4], [5]]

/-- C6: the PyMC3 host loop returns a 1-D float32 buffer with one entry
per sample row, the entry at s being the density of row s conditioned on
the assigned data; the PythonModel bridge hands the subclass hook its
result through unchanged, so a hook meeting its array[S] contract yields
a length-S result; the Stan host loop, whenever it returns, returns a
1-D float32 buffer of the batch length whose entry at s is the fit
density of the unconstrained conversion of row s; and the cited
end-to-end example, data map with key x and value [1, 2, 3] against a
5-row batch, yields a result of length 5. -/
theorem adapters_return_f32_per_sample :
    (∀ (α : Type) (logp : List (String × α) → List ℚ → ℚ)
      (assign : List (String × α)) (zs : Batch),
      (pymc3DensityLoop logp assign zs).dtype = DType.f32 ∧
      (pymc3DensityLoop logp assign zs).data.length = zs.length ∧
      ∀ s, s < zs.length →
        (pymc3DensityLoop logp assign zs).data.getD s 0 =
          logp assign (zs.getD s [])) ∧
    (∀ (α : Type) (hook : List (String × α) → Option α → NpArr)
      (xs : List (String × α)) (zs : α) (S : Nat),
      (hook xs (some zs)).data.length = S →
      pyLogProbArgsHost hook (xs.map Prod.fst) (flattenArgs xs zs) =
        hook xs (some zs) ∧
      (pyLogProbArgsHost hook (xs.map Prod.fst) (flattenArgs xs zs)).data.length =
        S) ∧
    (∀ (fit : StanFit) (zs : Batch) (arr : NpArr),
      stanPyLogProb fit zs = some arr →
      arr.dtype = DType.f32 ∧ arr.data.length = zs.length ∧
      ∀ s, s < zs.length → ∃ d,
        stanZDict (fit.par_dims.zip fit.model_pars) (zs.getD s []) 0 = some d ∧
        arr.data.getD s 0 = fit.lp (fit.unconstrain d) false) ∧
    ((pymc3DensityLoop wLogp [("x", [1, 2, 3])] wZ5).data.length = 5 ∧
      (pymc3DensityLoop wLogp [("x", [1, 2, 3])] wZ5).dtype = DType.f32) := by
  refine ⟨?_, ?_, ?_, by decide, rfl⟩
  case refine_2 =>
    intro α hook xs zs S hS
    have hpass : pyLogProbArgsHost hook (xs.map Prod.fst) (flattenArgs xs zs) =
        hook xs (some zs) := by
      unfold pyLogProbArgsHost
      rw [py_round_trip xs zs]
    exact ⟨hpass, by rw [hpass]; exact hS⟩
  · intro α logp assign zs
    refine ⟨rfl, by simp [pymc3DensityLoop], ?_⟩
    intro s hs
    have hs' : s < (zs.map (fun z => logp assign z)).length := by simpa using hs
    show (zs.map (fun z => logp assign z)).getD s 0 = logp assign (zs.getD s [])
    rw [List.getD_eq_getElem _ _ hs', List.getElem_map,
      List.getD_eq_getElem _ _ hs]
  · intro fit zs arr h
    unfold stanPyLogProb at h
    cases hr : stanRowsLp fit zs with
    | none => rw [hr] at h; simp at h
    | some l =>
      rw [hr] at h
      simp only [Option.map_some', Option.some.injEq] at h
      obtain rfl : (⟨DType.f32, l⟩ : NpArr) = arr := h
      obtain ⟨hlen, hspec⟩ := stanRowsLp_spec fit zs l hr
      exact ⟨rfl, hlen, hspec⟩

/-- Concrete unconstrain transform of a one-scalar-parameter model. -/
def wUnc : List (String × ParVal) → List ℚ
  | [(_, ParVal.scalar x)] => [x]
  | _ => []

/-- Concrete fit handle for a model with a single scalar parameter. -/
def wFitS : StanFit := ⟨[[]], ["mu"], wUnc, fun v _ => v.headD 0⟩

/-- Concrete density hook standing for a PythonModel subclass override. -/
def wHook : List (String × List ℚ) → Option (List ℚ) → NpArr :=
  fun _ _ => ⟨DType.f32, [42]⟩

/-- Concrete observed-data map for the PythonModel witness. -/
def wXsD : List (String × List ℚ) := [("x", [1, 2, 3])]

theorem adapters_return_f32_per_sample_witness :
    ((stanPyLogProb wFitS wZ5 = some ⟨DType.f32, [1, 2, 3, 4, 5]⟩) ∧
      ((⟨DType.f32, [1, 2, 3, 4, 5]⟩ : NpArr).dtype = DType.f32 ∧
        (⟨DType.f32, [1, 2, 3, 4, 5]⟩ : NpArr).data.length = wZ5.length ∧
        ∀ s, s < wZ5.length → ∃ d,
          stanZDict (wFitS.par_dims.zip wFitS.model_pars) (wZ5.getD s []) 0 =
            some d ∧
          (⟨DType.f32, [1, 2, 3, 4, 5]⟩ : NpArr).data.getD s 0 =
            wFitS.lp (wFitS.unconstrain d) false)) ∧
    ((wHook wXsD (some [9])).data.length = 1 ∧
      (pyLogProbArgsHost wHook (wXsD.map Prod.fst) (flattenArgs wXsD [9]) =
          wHook wXsD (some [9]) ∧
        (pyLogProbArgsHost wHook (wXsD.map Prod.fst)
            (flattenArgs wXsD [9])).data.length = 1)) :=
  ⟨⟨by rfl,
    adapters_return_f32_per_sample.2.2.1 wFitS wZ5
      ⟨DType.f32, [1, 2, 3, 4, 5]⟩ (by rfl)⟩,
   ⟨by rfl,
    adapters_return_f32_per_sample.2.1 (List ℚ) wHook wXsD [9] 1 (by rfl)⟩⟩

end Ed
